import Mathlib

/-!
Verification of the scArches + Milo out-of-reference (OOR) detection workflow
from oor_benchmark (file methods/scArches_milo.py), shallowly embedded.

The workflow is glue over external libraries (scvi, milopy, scanpy); those
are modelled as oracle services (`Services`).  Floating point columns carry
only order comparisons in this file, so they are modelled as rationals.
The embedding step is instrumented with a `Trace` counting model-load
attempts and training calls, which the Python code performs as side effects.
-/

/-- One row of adata.obs: per-cell metadata.  `dataset_group` is the column
adata.obs of the same name; other columns (sample id, cell annotation, ...)
are looked up by name in `attrs`. -/
structure Obs where
  dataset_group : String
  attrs : List (String × String)
  deriving DecidableEq, Repr, Inhabited

/-- adata.obs column lookup for one cell (empty string if absent). -/
def Obs.col (o : Obs) (c : String) : String :=
  (o.attrs.lookup c).getD ""

/-- Per-neighbourhood differential-abundance statistics produced by
milopy.core.DA_nhoods: the var columns logFC and SpatialFDR of
adata.uns of key nhood_adata (indexed by neighbourhood). -/
structure NhoodAdata where
  logFC : List ℚ
  spatialFDR : List ℚ
  deriving DecidableEq, Repr, Inhabited

/-- The harmonized table adata.uns of key sample_adata built at lines
111-116: var columns OOR_score and OOR_signif plus the varm groups
cross-reference (neighbourhoods × cells). -/
structure SampleAdata where
  OOR_score : List ℚ
  OOR_signif : List ℤ
  groups : List (List Bool)
  deriving DecidableEq, Repr, Inhabited

/-- The cell collection.  `cells` are the obs rows in order; `obsm` holds the
keyed per-cell matrices (latent embeddings); `is_query_col` is the obs column
is_query once assigned; `neighbors_k` records the n_neighbors parameter
passed to sc.pp.neighbors (the graph itself is opaque); `nhoods` is the
cells × neighbourhoods membership matrix from milopy.core.make_nhoods. -/
structure AnnData where
  cells : List Obs
  obsm : List (String × List (List Int))
  is_query_col : Option (List Bool) := none
  neighbors_k : Option Nat := none
  nhoods : Option (List (List Bool)) := none
  nhood_adata : Option NhoodAdata := none
  sample_adata : Option SampleAdata := none
  deriving DecidableEq, Repr, Inhabited

/-- Python exception kinds relevant to the model-loading path. -/
inductive PyErr where
  | fileNotFound : PyErr
  | valueError : PyErr
  | other : String → PyErr
  deriving DecidableEq, Repr

/-- Counters instrumenting the embedding step: how many persisted-model load
attempts and how many training calls were made. -/
structure Trace where
  loads : Nat
  trains : Nat
  deriving DecidableEq, Repr

/-- Oracle services standing for the external libraries: `loadModel` is
scvi.model.SCVI.load on a directory path (only its success or failure kind
matters); `latentOf` gives the latent vector of a cell as produced by the
persisted models; `trainMatrix` is the X_scVI matrix attached by
embedding_scArches when training from scratch; `makeNhoods` and `daResult`
stand for milopy.core.make_nhoods and milopy.core.DA_nhoods. -/
structure Services where
  loadModel : String → Except PyErr Unit
  latentOf : Obs → List Int
  trainMatrix : List Obs → String → List (List Int)
  makeNhoods : AnnData → ℚ → List (List Bool)
  daResult : AnnData → String → NhoodAdata

/-- Dictionary lookup in adata.obsm. -/
def obsmLookup (obsm : List (String × List (List Int))) (k : String) :
    Option (List (List Int)) :=
  obsm.lookup k

/-- Dictionary assignment in adata.obsm. -/
def obsmSet (obsm : List (String × List (List Int))) (k : String)
    (m : List (List Int)) : List (String × List (List Int)) :=
  (k, m) :: obsm.filter (fun km => !(km.1 == k))

/-- Row-slice a per-cell column or matrix by a predicate on the cell rows:
keeps the entries whose cell satisfies the predicate, in order. -/
def sliceBy (cells : List Obs) (p : Obs → Bool) (rows : List α) : List α :=
  ((cells.zip rows).filter (fun cr => p cr.1)).map Prod.snd

/-- adata[mask].copy() for a boolean obs mask given by a predicate on cells:
slices the obs rows and every per-cell matrix or column; uns-level fields are
carried over. -/
def subsetAdata (p : Obs → Bool) (a : AnnData) : AnnData :=
  { cells := a.cells.filter p
    obsm := a.obsm.map (fun km => (km.1, sliceBy a.cells p km.2))
    is_query_col := a.is_query_col.map (sliceBy a.cells p)
    neighbors_k := a.neighbors_k
    nhoods := a.nhoods.map (sliceBy a.cells p)
    nhood_adata := a.nhood_adata
    sample_adata := a.sample_adata }

/-- Line 79: subset to the datasets of interest, keeping cells whose
dataset_group is embedding_reference, diff_reference or the literal
string query, then copy. -/
def subsetStep (a : AnnData) (embedding_reference diff_reference : String) :
    AnnData :=
  subsetAdata (fun c =>
    c.dataset_group == embedding_reference ||
      c.dataset_group == diff_reference ||
      c.dataset_group == "query") a

/-- Lines 86-87: load the two persisted models, reference model first, from
the paths outdir/model_(embedding_reference) and
outdir/model_fit_query2(embedding_reference); the first failure wins. -/
def tryLoadModels (svc : Services) (outdir : String)
    (embedding_reference : String) : Except PyErr Unit := do
  let _ ← svc.loadModel (outdir ++ "/model_" ++ embedding_reference ++ "/")
  let _ ← svc.loadModel
    (outdir ++ "/model_fit_query2" ++ embedding_reference ++ "/")
  pure ()

/-- Modelled from the spec: the query-mapping model loaded from
model_fit_query2... yields latent vectors for the cells outside the
embedding-reference group, in their order in the filtered collection.  The
repository file methods/_latent_embedding.py, which fixes which cells each
persisted model covers, is not under src; the spec says the reference group
is the training set and the query group is mapped onto it. -/
def qLatents (svc : Services) (embedding_reference : String)
    (cells : List Obs) : List (List Int) :=
  (cells.filter (fun c => !(c.dataset_group == embedding_reference))).map
    svc.latentOf

/-- Modelled from the spec: the reference model loaded from model_... yields
latent vectors for the embedding-reference group cells, in their order in
the filtered collection (see `qLatents`). -/
def refLatents (svc : Services) (embedding_reference : String)
    (cells : List Obs) : List (List Int) :=
  (cells.filter (fun c => c.dataset_group == embedding_reference)).map
    svc.latentOf

/-- Lines 92-96: embedding_scArches(adata, ref_dataset=embedding_reference,
...) trains from scratch and attaches the latent matrix under X_scVI; the
matrix content is delegated to the external service. -/
def embedTrain (svc : Services) (embedding_reference : String) (a : AnnData) :
    AnnData :=
  { a with obsm := (obsmSet a.obsm "X_scVI"
      (svc.trainMatrix a.cells embedding_reference)) }

/-- Lines 82-96: the embedding provider.  Skip when X_scVI is present;
otherwise with an output directory try loading the two persisted models and
on success attach the vstack of query latents then reference latents,
falling back to training on FileNotFoundError or ValueError; without an
output directory always train.  The returned `Trace` counts load attempts
and training calls. -/
def embedStep (svc : Services) (outdir : Option String)
    (embedding_reference : String) (a : AnnData) :
    Except PyErr (AnnData × Trace) :=
  if (obsmLookup a.obsm "X_scVI").isSome then
    .ok (a, ⟨0, 0⟩)
  else
    match outdir with
    | some d =>
      match tryLoadModels svc d embedding_reference with
      | .ok _ =>
        .ok ({ a with obsm := (obsmSet a.obsm "X_scVI"
                (qLatents svc embedding_reference a.cells ++
                  refLatents svc embedding_reference a.cells)) },
          ⟨1, 0⟩)
      | .error .fileNotFound =>
        .ok (embedTrain svc embedding_reference a, ⟨1, 1⟩)
      | .error .valueError =>
        .ok (embedTrain svc embedding_reference a, ⟨1, 1⟩)
      | .error (.other s) => .error (.other s)
    | none => .ok (embedTrain svc embedding_reference a, ⟨0, 1⟩)

/-- Lines 99-100: remove the embedding reference from the collection when it
is no longer needed, i.e. when diff_reference differs from
embedding_reference. -/
def dropStep (embedding_reference diff_reference : String) (a : AnnData) :
    AnnData :=
  if diff_reference != embedding_reference then
    subsetAdata (fun c => c.dataset_group != embedding_reference) a
  else a

/-- Number of distinct sample identifiers among the cells of one dataset
group: adata[adata.obs of dataset_group == grp].obs[sample_col].unique()
.shape[0]. -/
def nDistinctSamples (a : AnnData) (grp : String) (sample_col : String) :
    Nat :=
  (((a.cells.filter (fun c => c.dataset_group == grp)).map
    (fun c => c.col sample_col)).dedup).length

/-- Lines 103-105: build the KNN graph with
n_neighbors = (n_controls + n_querys) * 5; only the parameter is recorded,
the graph itself is opaque. -/
def graphStep (sample_col diff_reference : String) (a : AnnData) : AnnData :=
  { a with neighbors_k :=
      (some ((nDistinctSamples a diff_reference sample_col +
        nDistinctSamples a "query" sample_col) * 5)) }

/-- Lines 10-39 (run_milo): make neighbourhoods (prop 0.1), count them,
annotate (reporting only, not modelled), assign the binary covariate
is_query as dataset_group == query_group, then run the differential test.
The statistics are delegated to the external service. -/
def run_milo (svc : Services) (adata_design : AnnData)
    (query_group reference_group : String)
    (sample_col annot_col design : String) : AnnData :=
  let a1 : AnnData := { adata_design with
    nhoods := some (svc.makeNhoods adata_design (1 / 10)) }
  let a2 : AnnData := { a1 with
    is_query_col := (some (a1.cells.map
      (fun c : Obs => c.dataset_group == query_group))) }
  { a2 with nhood_adata := some (svc.daResult a2 design) }

/-- Lines 113-115: the OOR_signif column,
((SpatialFDR < signif_alpha) and (logFC > 0)) cast to int, elementwise. -/
def oorSignifCol (spatialFDR logFC : List ℚ) (signif_alpha : ℚ) : List ℤ :=
  List.zipWith
    (fun f l => if f < signif_alpha ∧ 0 < l then (1 : ℤ) else 0)
    spatialFDR logFC

/-- Lines 111-116: the harmonized table: OOR_score copies logFC, OOR_signif
is `oorSignifCol`, groups is the transposed neighbourhood membership. -/
def mkSampleAdata (signif_alpha : ℚ) (nd : NhoodAdata)
    (nh : List (List Bool)) : SampleAdata :=
  { OOR_score := nd.logFC
    OOR_signif := oorSignifCol nd.spatialFDR nd.logFC signif_alpha
    groups := nh.transpose }

/-- Lines 110-116: attach the harmonized table under uns sample_adata. -/
def harmonizeStep (signif_alpha : ℚ) (a : AnnData) : AnnData :=
  match a.nhood_adata, a.nhoods with
  | some nd, some nh =>
    { a with sample_adata := some (mkSampleAdata signif_alpha nd nh) }
  | _, _ => a

/-- The keyword parameters of scArches_milo other than the two reference
group labels, with their Python defaults. -/
structure Params where
  sample_col : String := "sample_id"
  annot_col : String := "cell_annotation"
  signif_alpha : ℚ := 1 / 10
  outdir : Option String := none
  harmonize_output : Bool := true
  milo_design : String := "~ is_query"

/-- The stages of scArches_milo after the embedding step: drop the embedding
reference, build the KNN graph, run Milo with query group hardcoded to the
literal string query, then harmonize when requested. -/
def postEmbed (svc : Services) (p : Params)
    (embedding_reference diff_reference : String) (a2 : AnnData) : AnnData :=
  let a3 := dropStep embedding_reference diff_reference a2
  let a4 := graphStep p.sample_col diff_reference a3
  let a5 := run_milo svc a4 "query" diff_reference p.sample_col p.annot_col
    p.milo_design
  if p.harmonize_output then harmonizeStep p.signif_alpha a5 else a5

/-- Lines 42-118: the full scArches_milo workflow.  The Python defaults are
embedding_reference atlas and diff_reference ctrl.  An uncaught exception
from the loading path propagates as the error case. -/
def scArches_milo (svc : Services) (adata : AnnData)
    (embedding_reference diff_reference : String) (p : Params) :
    Except PyErr (AnnData × Trace) :=
  match embedStep svc p.outdir embedding_reference
      (subsetStep adata embedding_reference diff_reference) with
  | .ok (a2, tr) =>
    .ok (postEmbed svc p embedding_reference diff_reference a2, tr)
  | .error e => .error e

/-- Lines 121-123: the ACR preset. -/
def scArches_atlas_milo_ctrl (svc : Services) (adata : AnnData) (p : Params) :
    Except PyErr (AnnData × Trace) :=
  scArches_milo svc adata "atlas" "ctrl" p

/-- Lines 126-128: the AR preset. -/
def scArches_atlas_milo_atlas (svc : Services) (adata : AnnData)
    (p : Params) : Except PyErr (AnnData × Trace) :=
  scArches_milo svc adata "atlas" "atlas" p

/-- Lines 131-133: the CR preset. -/
def scArches_ctrl_milo_ctrl (svc : Services) (adata : AnnData) (p : Params) :
    Except PyErr (AnnData × Trace) :=
  scArches_milo svc adata "ctrl" "ctrl" p

/-- Aliasing state for the frame property: the caller-owned collection and
the local working collection of the workflow body. -/
structure PipeState where
  caller : AnnData
  working : AnnData
  deriving DecidableEq

/-- Line 79 as a state transformer: the working collection becomes a copy of
the subset of the caller collection; the caller slot is untouched because of
the copy. -/
def selectStage (embedding_reference diff_reference : String)
    (s : PipeState) : PipeState :=
  { s with working := (subsetStep s.caller embedding_reference
      diff_reference) }

/-- The workflow threaded over the aliasing state: all in-place mutations
act on the working copy, and the caller slot is returned alongside the
result. -/
def scArches_milo_tracked (svc : Services) (adata : AnnData)
    (embedding_reference diff_reference : String) (p : Params) :
    AnnData × Except PyErr (AnnData × Trace) :=
  let s1 := selectStage embedding_reference diff_reference ⟨adata, adata⟩
  (s1.caller,
    match embedStep svc p.outdir embedding_reference s1.working with
    | .ok (a2, tr) =>
      .ok (postEmbed svc p embedding_reference diff_reference a2, tr)
    | .error e => .error e)

/-! ### Helper lemmas -/

theorem lookup_map_snd {A B : Type} (k : String) (l : List (String × A))
    (f : A → B) :
    List.lookup k (l.map (fun kv => (kv.1, f kv.2))) =
      (List.lookup k l).map f := by
  induction l with
  | nil => rfl
  | cons kv t ih =>
    by_cases h : (k == kv.1) = true
    · simp [List.lookup, h]
    · simp only [Bool.not_eq_true] at h
      simp [List.lookup, h, ih]

theorem obsmLookup_subsetAdata (p : Obs → Bool) (a : AnnData) (k : String) :
    obsmLookup (subsetAdata p a).obsm k =
      (obsmLookup a.obsm k).map (sliceBy a.cells p) := by
  simpa [obsmLookup, subsetAdata] using lookup_map_snd k a.obsm _

theorem getD_zipWith_lt {A B C : Type} (f : A → B → C) (l1 : List A)
    (l2 : List B) (i : Nat) (d1 : A) (d2 : B) (d : C)
    (h1 : i < l1.length) (h2 : i < l2.length) :
    (List.zipWith f l1 l2).getD i d = f (l1.getD i d1) (l2.getD i d2) := by
  induction l1 generalizing l2 i with
  | nil => simp at h1
  | cons x xs ih =>
    cases l2 with
    | nil => simp at h2
    | cons y ys =>
      cases i with
      | zero => rfl
      | succ n =>
        simp only [List.zipWith_cons_cons, List.getD_cons_succ]
        exact ih ys n (by simpa using h1) (by simpa using h2)

theorem getD_map_lt {A B : Type} (f : A → B) (l : List A) (i : Nat) (dA : A)
    (dB : B) (h : i < l.length) :
    (l.map f).getD i dB = f (l.getD i dA) := by
  induction l generalizing i with
  | nil => simp at h
  | cons x xs ih =>
    cases i with
    | zero => rfl
    | succ n =>
      simp only [List.map_cons, List.getD_cons_succ]
      exact ih n (by simpa using h)

/-! ### Claim theorems -/

/-- C3: the number of neighbors k passed to the nearest-neighbor graph
builder equals 5 times the sum of the number of distinct sample identifiers
in the diff_reference group and in the query group of the collection the
builder receives. -/
theorem knn_k_value (sample_col diff_reference : String) (a : AnnData) :
    (graphStep sample_col diff_reference a).neighbors_k =
      some (5 * (nDistinctSamples a diff_reference sample_col +
        nDistinctSamples a "query" sample_col)) := by
  simp [graphStep, Nat.mul_comm]

/-- C8: each of the three preset entry points equals the main workflow with
(embedding_reference, diff_reference) fixed to (atlas, ctrl), (atlas, atlas)
and (ctrl, ctrl) respectively, all other parameters forwarded unchanged. -/
theorem preset_equivalences (svc : Services) (adata : AnnData) (p : Params) :
    scArches_atlas_milo_ctrl svc adata p =
        scArches_milo svc adata "atlas" "ctrl" p ∧
      scArches_atlas_milo_atlas svc adata p =
        scArches_milo svc adata "atlas" "atlas" p ∧
      scArches_ctrl_milo_ctrl svc adata p =
        scArches_milo svc adata "ctrl" "ctrl" p :=
  ⟨rfl, rfl, rfl⟩

/-- C9: threading the caller-owned collection explicitly through the
workflow, the caller slot is returned unchanged (the subsetting step copies
before anything is attached), and the tracked workflow agrees with the
plain one. -/
theorem caller_not_mutated (svc : Services) (adata : AnnData)
    (embedding_reference diff_reference : String) (p : Params) :
    (scArches_milo_tracked svc adata embedding_reference diff_reference
        p).1 = adata ∧
      (scArches_milo_tracked svc adata embedding_reference diff_reference
        p).2 = scArches_milo svc adata embedding_reference diff_reference
        p :=
  ⟨rfl, rfl⟩

/-- C1: in the harmonized table, OOR_signif at a neighbourhood is 1 exactly
when its SpatialFDR is strictly below signif_alpha and its logFC is strictly
positive, and 0 otherwise; boundary values (SpatialFDR equal to the
threshold, logFC equal to 0) therefore give 0. -/
theorem oor_signif_iff (a : AnnData) (nd : NhoodAdata)
    (nh : List (List Bool)) (sa : SampleAdata) (alpha : ℚ) (i : Nat)
    (hnd : a.nhood_adata = some nd) (hnh : a.nhoods = some nh)
    (hsa : (harmonizeStep alpha a).sample_adata = some sa)
    (hf : i < nd.spatialFDR.length) (hl : i < nd.logFC.length) :
    (sa.OOR_signif.getD i 0 = 1 ↔
      (nd.spatialFDR.getD i 0 < alpha ∧ 0 < nd.logFC.getD i 0)) ∧
    (sa.OOR_signif.getD i 0 = 0 ↔
      ¬(nd.spatialFDR.getD i 0 < alpha ∧ 0 < nd.logFC.getD i 0)) := by
  have hsa2 : sa = mkSampleAdata alpha nd nh := by
    simp [harmonizeStep, hnd, hnh] at hsa
    exact hsa.symm
  subst hsa2
  have hg : (mkSampleAdata alpha nd nh).OOR_signif.getD i 0 =
      (if nd.spatialFDR.getD i 0 < alpha ∧ 0 < nd.logFC.getD i 0
        then (1 : ℤ) else 0) := by
    simp only [mkSampleAdata, oorSignifCol]
    exact getD_zipWith_lt _ _ _ i 0 0 0 hf hl
  rw [hg]
  rcases Classical.em
      (nd.spatialFDR.getD i 0 < alpha ∧ 0 < nd.logFC.getD i 0) with hc | hc
  · simp [hc]
  · simp [hc]

/-- Example per-neighbourhood statistics exercising the boundary cases:
neighbourhood 0 is significant and enriched, neighbourhood 1 has logFC
exactly 0, neighbourhood 2 has SpatialFDR exactly at the threshold. -/
def ndEx : NhoodAdata :=
  { logFC := [1, 0, 2], spatialFDR := [1 / 20, 1 / 20, 1 / 10] }

/-- Example collection carrying `ndEx` and an empty neighbourhood matrix. -/
def adataHarm : AnnData :=
  { cells := [], obsm := [], nhoods := some [], nhood_adata := some ndEx }

theorem oor_signif_iff_witness :
    ((mkSampleAdata (1 / 10) ndEx []).OOR_signif.getD 0 0 = 1 ↔
      (ndEx.spatialFDR.getD 0 0 < 1 / 10 ∧ 0 < ndEx.logFC.getD 0 0)) ∧
    ((mkSampleAdata (1 / 10) ndEx []).OOR_signif.getD 0 0 = 0 ↔
      ¬(ndEx.spatialFDR.getD 0 0 < 1 / 10 ∧ 0 < ndEx.logFC.getD 0 0)) :=
  oor_signif_iff adataHarm ndEx [] (mkSampleAdata (1 / 10) ndEx []) (1 / 10)
    0 rfl rfl rfl (by decide) (by decide)

/-- Example services whose model loading always succeeds. -/
def svcEx : Services :=
  { loadModel := fun _ => .ok ()
    latentOf := fun _ => [0]
    trainMatrix := fun cs _ => cs.map (fun _ => [0])
    makeNhoods := fun _ _ => []
    daResult := fun _ _ => ⟨[], []⟩ }

/-- Example services whose model loading fails with FileNotFoundError. -/
def svcFnf : Services :=
  { svcEx with loadModel := fun _ => .error PyErr.fileNotFound }

/-- The Python default keyword arguments. -/
def pEx : Params := {}

/-- Example collection with an X_scVI matrix already attached. -/
def adataWithEmb : AnnData :=
  { cells := [⟨"ctrl", [("sample_id", "s1")]⟩,
      ⟨"query", [("sample_id", "s2")]⟩]
    obsm := [("X_scVI", [[3], [4]])] }

/-- Example collection with no embedding attached. -/
def adataNoEmb : AnnData :=
  { cells := [⟨"ctrl", [("sample_id", "s1")]⟩,
      ⟨"query", [("sample_id", "s2")]⟩]
    obsm := [] }

/-- C4: during the persisted-model load attempt, a FileNotFoundError or a
ValueError is caught and triggers exactly one training call, with no error
reaching the caller; any other exception propagates unchanged. -/
theorem load_error_handling (svc : Services) (d embedding_reference : String)
    (a : AnnData) (s : String)
    (hkey : obsmLookup a.obsm "X_scVI" = none) :
    ((tryLoadModels svc d embedding_reference = .error .fileNotFound ∨
        tryLoadModels svc d embedding_reference = .error .valueError) →
      embedStep svc (some d) embedding_reference a =
        .ok (embedTrain svc embedding_reference a, ⟨1, 1⟩)) ∧
    (tryLoadModels svc d embedding_reference = .error (.other s) →
      embedStep svc (some d) embedding_reference a =
        .error (.other s)) := by
  constructor
  · rintro (h | h) <;> simp [embedStep, hkey, h]
  · intro h
    simp [embedStep, hkey, h]

theorem load_error_handling_witness :
    embedStep svcFnf (some "out") "atlas" adataNoEmb =
      .ok (embedTrain svcFnf "atlas" adataNoEmb, ⟨1, 1⟩) :=
  (load_error_handling svcFnf "out" "atlas" adataNoEmb "boom" rfl).1
    (Or.inl rfl)

/-- C5: when the (filtered) collection already carries X_scVI, the embedding
step returns it unchanged with zero load attempts and zero training calls,
and the workflow result is the post-embedding stages applied to the
untouched filtered collection. -/
theorem skip_embedding_when_present (svc : Services) (adata : AnnData)
    (embedding_reference diff_reference : String) (p : Params)
    (hkey : (obsmLookup adata.obsm "X_scVI").isSome = true) :
    embedStep svc p.outdir embedding_reference
        (subsetStep adata embedding_reference diff_reference) =
      .ok (subsetStep adata embedding_reference diff_reference, ⟨0, 0⟩) ∧
    scArches_milo svc adata embedding_reference diff_reference p =
      .ok (postEmbed svc p embedding_reference diff_reference
        (subsetStep adata embedding_reference diff_reference), ⟨0, 0⟩) := by
  have hkey2 : (obsmLookup
      (subsetStep adata embedding_reference diff_reference).obsm
      "X_scVI").isSome = true := by
    rw [subsetStep, obsmLookup_subsetAdata, Option.isSome_map']
    exact hkey
  have h1 : embedStep svc p.outdir embedding_reference
      (subsetStep adata embedding_reference diff_reference) =
      .ok (subsetStep adata embedding_reference diff_reference, ⟨0, 0⟩) := by
    simp [embedStep, hkey2]
  refine ⟨h1, ?_⟩
  simp [scArches_milo, h1]

theorem skip_embedding_when_present_witness :
    embedStep svcEx pEx.outdir "atlas"
        (subsetStep adataWithEmb "atlas" "ctrl") =
      .ok (subsetStep adataWithEmb "atlas" "ctrl", ⟨0, 0⟩) ∧
    scArches_milo svcEx adataWithEmb "atlas" "ctrl" pEx =
      .ok (postEmbed svcEx pEx "atlas" "ctrl"
        (subsetStep adataWithEmb "atlas" "ctrl"), ⟨0, 0⟩) :=
  skip_embedding_when_present svcEx adataWithEmb "atlas" "ctrl" pEx rfl

/-- C6: with no output directory and no embedding attached, the workflow
trains from scratch exactly once and never attempts a model load. -/
theorem train_when_no_outdir (svc : Services) (adata : AnnData)
    (embedding_reference diff_reference : String) (p : Params)
    (hout : p.outdir = none)
    (hkey : obsmLookup adata.obsm "X_scVI" = none) :
    scArches_milo svc adata embedding_reference diff_reference p =
      .ok (postEmbed svc p embedding_reference diff_reference
        (embedTrain svc embedding_reference
          (subsetStep adata embedding_reference diff_reference)), ⟨0, 1⟩) := by
  have hkey2 : obsmLookup
      (subsetStep adata embedding_reference diff_reference).obsm
      "X_scVI" = none := by
    rw [subsetStep, obsmLookup_subsetAdata, hkey]
    rfl
  have h1 : embedStep svc p.outdir embedding_reference
      (subsetStep adata embedding_reference diff_reference) =
      .ok (embedTrain svc embedding_reference
        (subsetStep adata embedding_reference diff_reference), ⟨0, 1⟩) := by
    rw [hout]
    simp [embedStep, hkey2]
  simp [scArches_milo, h1]

theorem train_when_no_outdir_witness :
    scArches_milo svcEx adataNoEmb "atlas" "ctrl" pEx =
      .ok (postEmbed svcEx pEx "atlas" "ctrl"
        (embedTrain svcEx "atlas"
          (subsetStep adataNoEmb "atlas" "ctrl")), ⟨0, 1⟩) :=
  train_when_no_outdir svcEx adataNoEmb "atlas" "ctrl" pEx rfl rfl

/-- C7: before the neighbor graph is built, when diff_reference differs from
embedding_reference every cell labelled with the embedding reference group
is removed (exactly the cells with another label remain, in order); when the
two coincide nothing is removed. -/
theorem drop_embedding_reference (embedding_reference diff_reference :
    String) (a : AnnData) :
    (diff_reference ≠ embedding_reference →
      (dropStep embedding_reference diff_reference a).cells =
        a.cells.filter
          (fun c => c.dataset_group != embedding_reference) ∧
      ∀ c ∈ (dropStep embedding_reference diff_reference a).cells,
        c.dataset_group ≠ embedding_reference) ∧
    (diff_reference = embedding_reference →
      dropStep embedding_reference diff_reference a = a) := by
  constructor
  · intro hne
    have hb : (diff_reference != embedding_reference) = true :=
      bne_iff_ne.mpr hne
    constructor
    · simp [dropStep, hb, subsetAdata]
    · intro c hc
      simp only [dropStep, hb, if_true, subsetAdata] at hc
      have hp := (List.mem_filter.mp hc).2
      exact bne_iff_ne.mp hp
  · intro heq
    simp [dropStep, heq]

theorem drop_embedding_reference_witness :
    (dropStep "atlas" "ctrl" adataNoEmb).cells =
      adataNoEmb.cells.filter (fun c => c.dataset_group != "atlas") ∧
    dropStep "atlas" "atlas" adataNoEmb = adataNoEmb :=
  ⟨((drop_embedding_reference "atlas" "ctrl" adataNoEmb).1 (by decide)).1,
    (drop_embedding_reference "atlas" "atlas" adataNoEmb).2 rfl⟩

theorem mem_of_mem_dropStep (embedding_reference diff_reference : String)
    (b : AnnData) (c : Obs)
    (hc : c ∈ (dropStep embedding_reference diff_reference b).cells) :
    c ∈ b.cells := by
  by_cases hb : (diff_reference != embedding_reference) = true
  · simp only [dropStep, hb, if_true, subsetAdata] at hc
    exact (List.mem_filter.mp hc).1
  · simp only [dropStep, hb, if_false] at hc
    exact hc

theorem mem_of_mem_subsetStep (a : AnnData)
    (embedding_reference diff_reference : String) (c : Obs)
    (hc : c ∈ (subsetStep a embedding_reference diff_reference).cells) :
    c ∈ a.cells := by
  simp only [subsetStep, subsetAdata] at hc
  exact (List.mem_filter.mp hc).1

/-- C10: the query group label is the hardcoded literal string query: for a
collection none of whose cells carry that exact label, the initial subset
keeps only embedding-reference and diff-reference cells, the query sample
count used for k is 0, and the is_query covariate assigned by run_milo is
false on every cell. -/
theorem query_label_hardcoded (a : AnnData)
    (embedding_reference diff_reference sample_col : String)
    (svc : Services) (annot_col design : String)
    (h : ∀ c ∈ a.cells, c.dataset_group ≠ "query") :
    (∀ c ∈ (subsetStep a embedding_reference diff_reference).cells,
      c.dataset_group = embedding_reference ∨
        c.dataset_group = diff_reference) ∧
    nDistinctSamples (dropStep embedding_reference diff_reference
        (subsetStep a embedding_reference diff_reference)) "query"
        sample_col = 0 ∧
    (run_milo svc (graphStep sample_col diff_reference
          (dropStep embedding_reference diff_reference
            (subsetStep a embedding_reference diff_reference))) "query"
        diff_reference sample_col annot_col design).is_query_col =
      some ((graphStep sample_col diff_reference
        (dropStep embedding_reference diff_reference
          (subsetStep a embedding_reference diff_reference))).cells.map
        (fun _ => false)) := by
  have hpost : ∀ c ∈ (dropStep embedding_reference diff_reference
      (subsetStep a embedding_reference diff_reference)).cells,
      c.dataset_group ≠ "query" := by
    intro c hc
    exact h c (mem_of_mem_subsetStep a embedding_reference diff_reference c
      (mem_of_mem_dropStep embedding_reference diff_reference _ c hc))
  refine ⟨?_, ?_, ?_⟩
  · intro c hc
    have hmem := List.mem_filter.mp hc
    have hp := hmem.2
    simp only [Bool.or_eq_true, beq_iff_eq] at hp
    rcases hp with (hp | hp) | hp
    · exact Or.inl hp
    · exact Or.inr hp
    · exact absurd hp (h c hmem.1)
  · have hfil : (dropStep embedding_reference diff_reference
        (subsetStep a embedding_reference diff_reference)).cells.filter
        (fun c => c.dataset_group == "query") = [] := by
      refine List.filter_eq_nil_iff.mpr ?_
      intro c hc
      simp only [Bool.not_eq_true]
      exact beq_eq_false_iff_ne.mpr (hpost c hc)
    simp [nDistinctSamples, hfil]
  · have hmap : (graphStep sample_col diff_reference
        (dropStep embedding_reference diff_reference
          (subsetStep a embedding_reference diff_reference))).cells.map
        (fun c : Obs => c.dataset_group == "query") =
        (graphStep sample_col diff_reference
          (dropStep embedding_reference diff_reference
            (subsetStep a embedding_reference diff_reference))).cells.map
        (fun _ => false) := by
      refine List.map_congr_left ?_
      intro c hc
      have hc2 : c ∈ (dropStep embedding_reference diff_reference
          (subsetStep a embedding_reference diff_reference)).cells := hc
      exact beq_eq_false_iff_ne.mpr (hpost c hc2)
    simp only [run_milo]
    rw [hmap]

/-- Example collection whose query cells carry the label Query (capital Q)
rather than the hardcoded literal. -/
def adataMixed : AnnData :=
  { cells := [⟨"ctrl", [("sample_id", "s1")]⟩,
      ⟨"atlas", [("sample_id", "s2")]⟩,
      ⟨"Query", [("sample_id", "s3")]⟩]
    obsm := [] }

theorem query_label_hardcoded_witness :
    nDistinctSamples (dropStep "atlas" "ctrl"
        (subsetStep adataMixed "atlas" "ctrl")) "query" "sample_id" = 0 ∧
    (run_milo svcEx (graphStep "sample_id" "ctrl"
          (dropStep "atlas" "ctrl"
            (subsetStep adataMixed "atlas" "ctrl"))) "query"
        "ctrl" "sample_id" "cell_annotation" "~ is_query").is_query_col =
      some ((graphStep "sample_id" "ctrl"
        (dropStep "atlas" "ctrl"
          (subsetStep adataMixed "atlas" "ctrl"))).cells.map
        (fun _ => false)) :=
  ⟨(query_label_hardcoded adataMixed "atlas" "ctrl" "sample_id" svcEx
      "cell_annotation" "~ is_query" (by decide)).2.1,
    (query_label_hardcoded adataMixed "atlas" "ctrl" "sample_id" svcEx
      "cell_annotation" "~ is_query" (by decide)).2.2⟩

/-- Example services whose loading succeeds and whose latent vectors
distinguish atlas cells ([1]) from all other cells ([2]). -/
def svcLatent : Services :=
  { loadModel := fun _ => .ok ()
    latentOf := fun c => if c.dataset_group == "atlas" then [1] else [2]
    trainMatrix := fun _ _ => []
    makeNhoods := fun _ _ => []
    daResult := fun _ _ => ⟨[], []⟩ }

/-- Example collection whose filtered row order interleaves the groups: a
reference (atlas) cell first, then a query cell. -/
def adataInterleaved : AnnData :=
  { cells := [⟨"atlas", [("sample_id", "s1")]⟩,
      ⟨"query", [("sample_id", "s2")]⟩]
    obsm := [] }

/-- Example collection whose rows are already ordered query first, then the
embedding reference group. -/
def adataOrdered : AnnData :=
  { cells := [⟨"query", [("sample_id", "s2")]⟩,
      ⟨"atlas", [("sample_id", "s1")]⟩]
    obsm := [] }

/-- The X_scVI matrix attached by a successful embedding step. -/
def embedMatrix (r : Except PyErr (AnnData × Trace)) : List (List Int) :=
  match r with
  | .ok (b, _) => (obsmLookup b.obsm "X_scVI").getD []
  | .error _ => []

/-- C2 counterexample: on the fast load path with a filtered collection
listing a reference cell before a query cell, the attached matrix is the
query latent followed by the reference latent, so row 0 of the matrix is not
the latent vector of cell 0 of the filtered collection. -/
theorem fastpath_row_mismatch :
    embedMatrix (embedStep svcLatent (some "out") "atlas"
        (subsetStep adataInterleaved "atlas" "ctrl")) = [[2], [1]] ∧
    (subsetStep adataInterleaved "atlas" "ctrl").cells.map
        svcLatent.latentOf = [[1], [2]] ∧
    embedMatrix (embedStep svcLatent (some "out") "atlas"
        (subsetStep adataInterleaved "atlas" "ctrl")) ≠
      (subsetStep adataInterleaved "atlas" "ctrl").cells.map
        svcLatent.latentOf := by
  refine ⟨by decide, by decide, by decide⟩

/-- C2 (amended): on the fast load path the attached X_scVI matrix is the
query-group latent rows in their filtered order followed by the
reference-group latent rows in their filtered order; when every cell outside
the embedding-reference group precedes every embedding-reference cell in the
filtered collection, row i of the matrix is the latent vector of cell i. -/
theorem fastpath_row_order (svc : Services) (d embedding_reference : String)
    (a : AnnData) (qs rs : List Obs)
    (hq : ∀ c ∈ qs, (c.dataset_group == embedding_reference) = false)
    (hr : ∀ c ∈ rs, (c.dataset_group == embedding_reference) = true)
    (hcells : a.cells = qs ++ rs)
    (hkey : obsmLookup a.obsm "X_scVI" = none)
    (hload : tryLoadModels svc d embedding_reference = .ok ()) :
    (qLatents svc embedding_reference a.cells = qs.map svc.latentOf ∧
      refLatents svc embedding_reference a.cells = rs.map svc.latentOf) ∧
    embedStep svc (some d) embedding_reference a =
      .ok ({ a with obsm := (obsmSet a.obsm "X_scVI"
        (a.cells.map svc.latentOf)) }, ⟨1, 0⟩) ∧
    ∀ i, i < a.cells.length →
      (a.cells.map svc.latentOf).getD i [] =
        svc.latentOf (a.cells.getD i ⟨"", []⟩) := by
  have hql : qLatents svc embedding_reference a.cells =
      qs.map svc.latentOf := by
    rw [qLatents, hcells, List.filter_append]
    rw [List.filter_eq_self.mpr (fun c hc => by simp [hq c hc])]
    rw [List.filter_eq_nil_iff.mpr (fun c hc => by simp [hr c hc])]
    simp
  have hrl : refLatents svc embedding_reference a.cells =
      rs.map svc.latentOf := by
    rw [refLatents, hcells, List.filter_append]
    rw [List.filter_eq_nil_iff.mpr (fun c hc => by simp [hq c hc])]
    rw [List.filter_eq_self.mpr (fun c hc => hr c hc)]
    simp
  have hm : qLatents svc embedding_reference a.cells ++
      refLatents svc embedding_reference a.cells =
      a.cells.map svc.latentOf := by
    rw [hql, hrl, ← List.map_append, ← hcells]
  refine ⟨⟨hql, hrl⟩, ?_, ?_⟩
  · simp [embedStep, hkey, hload, hm]
  · intro i hi
    exact getD_map_lt svc.latentOf a.cells i ⟨"", []⟩ [] hi

theorem fastpath_row_order_witness :
    embedStep svcLatent (some "out") "atlas" adataOrdered =
      .ok ({ adataOrdered with obsm := (obsmSet adataOrdered.obsm "X_scVI"
        (adataOrdered.cells.map svcLatent.latentOf)) }, ⟨1, 0⟩) ∧
    (adataOrdered.cells.map svcLatent.latentOf).getD 0 [] =
      svcLatent.latentOf (adataOrdered.cells.getD 0 ⟨"", []⟩) :=
  ⟨(fastpath_row_order svcLatent "out" "atlas" adataOrdered
      [⟨"query", [("sample_id", "s2")]⟩] [⟨"atlas", [("sample_id", "s1")]⟩]
      (by decide) (by decide) rfl rfl rfl).2.1,
    (fastpath_row_order svcLatent "out" "atlas" adataOrdered
      [⟨"query", [("sample_id", "s2")]⟩] [⟨"atlas", [("sample_id", "s1")]⟩]
      (by decide) (by decide) rfl rfl rfl).2.2 0 (by decide)⟩
